import Mathlib

/-!
# Dolby-Atmos-scanner — verification of the scan-and-cache pipeline

Shallow embedding of the scan pipeline of `Dolby_Atmos_scanner.py`:
the classifier (`scan_video`, lines 154–168), the per-file scan with its
signature cache (`scan_video`, lines 114–172), the cache store
(`load_cache` / `save_cache`, lines 74–95), and the folder walk and
orchestration (`scan_folders`, lines 177–210).

Modelling conventions:
* Python strings are Lean `String`s; `str.lower()` is `lowerStr` and the
  substring test `pat in s` is `strContains s pat` (both defined on the
  character list so they compute by kernel reduction).
* The filesystem is an explicit environment: `Env.sigOf` is the result of
  `file_signature` (`none` = `os.stat` raised `IOError`), `Env.probeOf` is
  the ffprobe invocation (`none` = any exception in the `try` block:
  missing executable, crash, malformed JSON output).
* A Python `dict` is an association list keyed by `String`; assignment
  `d[k] = v` is `cacheInsert`, which replaces in place or appends.
* Exceptions that escape a function are `Except.error ()`.
-/

namespace AtmosScanner

/-- `listIsPre as bs` is true iff `as` is a leading segment of `bs`
(character-list version of Python substring matching, helper). -/
def listIsPre : List Char → List Char → Bool
  | [], _ => true
  | _ :: _, [] => false
  | a :: as, b :: bs => a == b && listIsPre as bs

/-- `listHasSub pat l` is true iff `pat` occurs contiguously inside `l`. -/
def listHasSub (pat : List Char) : List Char → Bool
  | [] => listIsPre pat []
  | c :: cs => listIsPre pat (c :: cs) || listHasSub pat cs

/-- Python's `pat in s` substring test. -/
def strContains (s pat : String) : Bool := listHasSub pat.toList s.toList

/-- Python's `str.lower()` (ASCII lowering, as used on codec/profile tags). -/
def lowerStr (s : String) : String := String.mk (s.toList.map Char.toLower)

/-- One audio stream as extracted from the ffprobe JSON: `codec_name`
(default `""`), `profile` (default `""`), and the optional
`tags.language` (the defaults of the `.get` calls at lines 156–158 are
applied in `classify_stream`). -/
structure RawStream where
  codec_name : String
  profile : String
  language : Option String
deriving DecidableEq, Repr

/-- One detected spatial-audio track: the tuple
`(format, language, codec, profile)` appended at lines 162/165/168. -/
structure Track where
  format : String
  lang : String
  codec : String
  profile : String
deriving DecidableEq, Repr

/-- The classification of one stream, lines 156–168 of `scan_video`:
codec and profile are lowered, then the if/elif chain (with its redundant
`codec == "truehd"` disjunct) decides the label, or drops the stream. -/
def classify_stream (s : RawStream) : Option Track :=
  let codec := lowerStr s.codec_name
  let profile := lowerStr s.profile
  let lang := s.language.getD "unknown"
  if strContains profile "atmos" || (codec == "truehd" && strContains profile "atmos") then
    some ⟨"Dolby Atmos", lang, codec, profile⟩
  else if (codec == "eac3" || codec == "e-ac-3") && strContains profile "joc" then
    some ⟨"Dolby Atmos", lang, codec, profile⟩
  else if codec == "dts" && strContains profile "x" then
    some ⟨"DTS:X", lang, codec, profile⟩
  else
    none

/-- The decision table exactly as the spec words it (§4.4), for comparison
with `classify_stream`: 1. profile contains "atmos"; 2. codec in
{eac3, e-ac-3} and profile contains "joc"; 3. codec = "dts" and profile
contains "x"; 4. otherwise none. -/
def classify_spec (s : RawStream) : Option Track :=
  let codec := lowerStr s.codec_name
  let profile := lowerStr s.profile
  let lang := s.language.getD "unknown"
  if strContains profile "atmos" then
    some ⟨"Dolby Atmos", lang, codec, profile⟩
  else if (codec == "eac3" || codec == "e-ac-3") && strContains profile "joc" then
    some ⟨"Dolby Atmos", lang, codec, profile⟩
  else if codec == "dts" && strContains profile "x" then
    some ⟨"DTS:X", lang, codec, profile⟩
  else
    none

/-- A cache entry `{"sig": ..., "tracks": [...]}` (line 171). -/
structure CacheEntry where
  sig : String
  tracks : List Track
deriving DecidableEq, Repr

/-- The cache dict: association list from file path to entry. -/
abbrev Cache := List (String × CacheEntry)

/-- Python dict assignment `cache[key] = v`: replace in place if the key
is present, otherwise append. -/
def cacheInsert : Cache → String → CacheEntry → Cache
  | [], k, v => [(k, v)]
  | (k', v') :: rest, k, v =>
    if k' == k then (k, v) :: rest else (k', v') :: cacheInsert rest k v

/-- The filesystem/prober environment for one scan. `sigOf p` is
`file_signature(p)` (`none` = `os.stat` raises); `probeOf p` is the ffprobe
call of lines 143–152 (`none` = the `try` block raises; `some streams` =
the parsed `streams` list, `[]` when the key is missing). -/
structure Env where
  sigOf : String → Option String
  probeOf : String → Option (List RawStream)

/-- Result of one `scan_video` call: the returned track list, the cache
after the call, and whether ffprobe was invoked for this file. -/
structure VideoScan where
  tracks : List Track
  cache : Cache
  probed : Bool
deriving DecidableEq, Repr

/-- Lines 134–172 of `scan_video`: run ffprobe; on any exception return
`[]` WITHOUT touching the cache (lines 151–152); otherwise classify every
stream, store `{"sig": sig, "tracks": tracks}` under the path, and return
the tracks. -/
def probe_and_cache (env : Env) (path : String) (sig : String) (cache : Cache) : VideoScan :=
  match env.probeOf path with
  | none => ⟨[], cache, true⟩
  | some streams =>
    let tracks := streams.filterMap classify_stream
    ⟨tracks, cacheInsert cache path ⟨sig, tracks⟩, true⟩

/-- `scan_video(path, cache)`, lines 114–172: compute the signature (an
`IOError` propagates, line 127), return the cached tracks when the stored
signature matches (lines 131–132, no probe), otherwise probe and cache. -/
def scan_video (env : Env) (path : String) (cache : Cache) : Except Unit VideoScan :=
  match env.sigOf path with
  | none => .error ()
  | some sig =>
    match cache.lookup path with
    | some e =>
      if e.sig == sig then .ok ⟨e.tracks, cache, false⟩
      else .ok (probe_and_cache env path sig cache)
    | none => .ok (probe_and_cache env path sig cache)

/-- Result of `scan_folders`: the flattened `(path, track)` result rows,
the final in-memory cache (the one `save_cache` persists, line 209), and
the list of `progress_cb(i, total)` invocations in order. -/
structure FolderScan where
  results : List (String × Track)
  cache : Cache
  calls : List (Nat × Nat)
deriving DecidableEq, Repr

/-- The scan loop of lines 203–207: `for i, file in enumerate(files, 1)`,
scan, flatten tracks into result rows, call `progress_cb(i, total)`. An
exception from `scan_video` propagates and aborts the loop. -/
def scan_loop (env : Env) (total : Nat) : List String → Nat → Cache → Except Unit FolderScan
  | [], _, cache => .ok ⟨[], cache, []⟩
  | path :: rest, i, cache =>
    match scan_video env path cache with
    | .error e => .error e
    | .ok v =>
      match scan_loop env total rest (i + 1) v.cache with
      | .error e => .error e
      | .ok r => .ok ⟨v.tracks.map (fun t => (path, t)) ++ r.results, r.cache, (i, total) :: r.calls⟩

/-- One node of a directory tree: a plain file or a directory with
children. -/
inductive FsEntry where
  | file (name : String) : FsEntry
  | dir (name : String) (children : List FsEntry) : FsEntry

/-- One entry yielded by `Path(folder).rglob("*")`: its full path, its
final name component, and whether it is a directory. -/
structure DirEntry where
  path : String
  name : String
  isDir : Bool
deriving DecidableEq, Repr

mutual

/-- All entries below (and including) one tree node, as `rglob("*")`
yields them: the node itself, then its descendants. -/
def walkEntry (base : String) : FsEntry → List DirEntry
  | .file n => [⟨base ++ "/" ++ n, n, false⟩]
  | .dir n cs => ⟨base ++ "/" ++ n, n, true⟩ :: walkList (base ++ "/" ++ n) cs

/-- All entries below a list of sibling nodes. -/
def walkList (base : String) : List FsEntry → List DirEntry
  | [] => []
  | e :: es => walkEntry base e ++ walkList base es

end

/-- The index of the last `'.'` in a character list, if any. -/
def lastDot : List Char → Option Nat
  | [] => none
  | c :: cs =>
    match lastDot cs with
    | some i => some (i + 1)
    | none => if c == '.' then some 0 else none

/-- `pathlib.Path.suffix` of a name: the slice from the last dot, provided
that dot is neither the first nor the last character; `""` otherwise. -/
def suffixOf (name : String) : String :=
  let cs := name.toList
  match lastDot cs with
  | none => ""
  | some i => if 0 < i && i + 1 < cs.length then String.mk (cs.drop i) else ""

/-- Line 21: the recognized video extension set. -/
def VIDEO_EXTENSIONS : List String := [".mkv", ".mp4", ".avi", ".mov", ".ts", ".m2ts"]

/-- The filter of line 197: `f.suffix.lower() in VIDEO_EXTENSIONS`. -/
def matchesVideoExt (name : String) : Bool :=
  VIDEO_EXTENSIONS.contains (lowerStr (suffixOf name))

/-- One root folder handed to `scan_folders`: its path and its tree of
children. -/
structure Folder where
  root : String
  children : List FsEntry

/-- Every entry `rglob("*")` yields across all root folders, unfiltered
(auxiliary, for stating what the walk selects from). -/
def allEntries (folders : List Folder) : List DirEntry :=
  (folders.map (fun fo => walkList fo.root fo.children)).flatten

/-- Lines 193–198: collect, folder by folder, every `rglob` entry whose
suffix (lowered) is a recognized video extension. No regular-file check. -/
def enumerate_video_files (folders : List Folder) : List DirEntry :=
  (folders.map (fun fo =>
    (walkList fo.root fo.children).filter (fun f => matchesVideoExt f.name))).flatten

/-- `scan_folders(folders, progress_cb)`, lines 177–210: enumerate the
video files, then run the scan loop over their paths with `total` fixed to
the enumeration's length. `cache0` is the mapping `load_cache()` returned;
the `cache` field of the result is what `save_cache` then persists. -/
def scan_folders (env : Env) (folders : List Folder) (cache0 : Cache) : Except Unit FolderScan :=
  let files := (enumerate_video_files folders).map (fun f => f.path)
  scan_loop env files.length files 1 cache0

/-- A JSON document (the fragment the cache file uses: strings, arrays,
objects). -/
inductive Json where
  | str (s : String) : Json
  | arr (elems : List Json) : Json
  | obj (fields : List (String × Json)) : Json

/-- The durable cache file as `load_cache` can find it: absent,
present but not valid JSON, or parseable to a document. -/
inductive Storage where
  | absent : Storage
  | malformed : Storage
  | wellFormed (doc : Json) : Storage

/-- `load_cache()`, lines 74–85: `{}` when the file does not exist;
otherwise `json.load` — whose exception on invalid JSON propagates
(there is no try/except) — and the parsed document is returned as-is,
with no schema check. -/
def load_cache : Storage → Except Unit Json
  | .absent => .ok (.obj [])
  | .malformed => .error ()
  | .wellFormed doc => .ok doc

/-- `json.dump` of one track tuple: a four-element string array. -/
def encodeTrack (t : Track) : Json :=
  .arr [.str t.format, .str t.lang, .str t.codec, .str t.profile]

/-- `json.dump` of one cache entry: `{"sig": ..., "tracks": [...]}`. -/
def encodeEntry (e : CacheEntry) : Json :=
  .obj [("sig", .str e.sig), ("tracks", .arr (e.tracks.map encodeTrack))]

/-- `save_cache(cache)`, lines 87–95, at the JSON-value level: the dumped
document is the structural image of the mapping (Python's `json` module is
a faithful value↔text codec, so text serialization is abstracted). -/
def save_cache (c : Cache) : Json :=
  .obj (c.map (fun kv => (kv.1, encodeEntry kv.2)))

/-- Reading one track back out of the loaded document, as `scan_video`
and the result rows consume it. -/
def decodeTrack : Json → Option Track
  | .arr [.str a, .str b, .str c, .str d] => some ⟨a, b, c, d⟩
  | _ => none

/-- Reading a track array back, element by element. -/
def decodeTracks : List Json → Option (List Track)
  | [] => some []
  | j :: js =>
    match decodeTrack j, decodeTracks js with
    | some t, some ts => some (t :: ts)
    | _, _ => none

/-- Reading one cache entry back: the `"sig"` string and the `"tracks"`
array, as `cache[key]["sig"]` / `cache[key]["tracks"]` access them. -/
def decodeEntry : Json → Option CacheEntry
  | .obj fs =>
    match fs.lookup "sig", fs.lookup "tracks" with
    | some (.str s), some (.arr ts) =>
      match decodeTracks ts with
      | some tracks => some ⟨s, tracks⟩
      | none => none
    | _, _ => none
  | _ => none

/-- Reading the entries of a loaded cache document back, in order. -/
def decodeEntries : List (String × Json) → Option Cache
  | [] => some []
  | (k, v) :: rest =>
    match decodeEntry v, decodeEntries rest with
    | some e, some c => some ((k, e) :: c)
    | _, _ => none

/-- Reading a whole loaded cache document back into the typed mapping. -/
def decodeCache : Json → Option Cache
  | .obj fs => decodeEntries fs
  | _ => none

end AtmosScanner

namespace AtmosScanner

/-! ## Helper lemmas -/

theorem cacheInsert_lookup_self (c : Cache) (k : String) (v : CacheEntry) :
    (cacheInsert c k v).lookup k = some v := by
  induction c with
  | nil => simp [cacheInsert, List.lookup]
  | cons kv rest ih =>
    obtain ⟨k', v'⟩ := kv
    by_cases h : k' = k
    · simp [cacheInsert, h, List.lookup]
    · simp only [cacheInsert, beq_iff_eq, h, if_false, List.lookup]
      have : (k == k') = false := by simp [Ne.symm h]
      simp [this, ih]

theorem cacheInsert_lookup_ne (c : Cache) (k q : String) (v : CacheEntry) (hq : q ≠ k) :
    (cacheInsert c k v).lookup q = c.lookup q := by
  have hqk : (q == k) = false := by simp [hq]
  induction c with
  | nil => simp [cacheInsert, List.lookup, hqk]
  | cons kv rest ih =>
    obtain ⟨k', v'⟩ := kv
    by_cases h : k' = k
    · subst h
      simp [cacheInsert, List.lookup, hqk]
    · simp only [cacheInsert, beq_iff_eq, h, if_false, List.lookup]
      by_cases h2 : q = k'
      · simp [h2]
      · have : (q == k') = false := by simp [h2]
        simp [this, ih]

theorem classify_eq_spec (s : RawStream) : classify_stream s = classify_spec s := by
  unfold classify_stream classify_spec
  cases h : strContains (lowerStr s.profile) "atmos" <;> simp [h]

end AtmosScanner

namespace AtmosScanner

theorem probe_and_cache_lookup_ne (env : Env) (path sig q : String) (c : Cache) (hq : q ≠ path) :
    (probe_and_cache env path sig c).cache.lookup q = c.lookup q := by
  unfold probe_and_cache
  cases env.probeOf path with
  | none => rfl
  | some streams => exact cacheInsert_lookup_ne _ _ _ _ hq

theorem scan_video_ok_of_sig (env : Env) (path sig : String) (c : Cache)
    (h : env.sigOf path = some sig) : ∃ v, scan_video env path c = .ok v := by
  unfold scan_video
  rw [h]
  cases c.lookup path with
  | none => exact ⟨_, rfl⟩
  | some e =>
    cases he : (e.sig == sig) with
    | true =>
      refine ⟨⟨e.tracks, c, false⟩, ?_⟩
      simp [he]
    | false =>
      refine ⟨probe_and_cache env path sig c, ?_⟩
      simp [he]

theorem scan_video_frame (env : Env) (path q : String) (c : Cache) (v : VideoScan)
    (h : scan_video env path c = .ok v) (hq : q ≠ path) :
    v.cache.lookup q = c.lookup q := by
  unfold scan_video at h
  cases hs : env.sigOf path <;> rw [hs] at h
  · exact absurd h (by simp)
  case some sig =>
    cases hl : c.lookup path <;> rw [hl] at h
    · injection h with h'
      subst h'
      exact probe_and_cache_lookup_ne env path sig q c hq
    case some e =>
      cases he : (e.sig == sig) <;> simp only [he, if_true, if_false, Bool.false_eq_true] at h
      · injection h with h'
        subst h'
        exact probe_and_cache_lookup_ne env path sig q c hq
      · injection h with h'
        subst h'
        rfl

end AtmosScanner

namespace AtmosScanner

/-! ## Claim theorems -/

/-- C1: the classifier assigns labels by the spec's priority order
(profile contains "atmos" → Dolby Atmos; codec eac3/e-ac-3 with "joc" in
profile → Dolby Atmos; codec "dts" with "x" in profile → DTS:X; otherwise
excluded), case-insensitively, and the four spec examples evaluate as
stated. -/
theorem C1_classifier_decision_table :
    (∀ s : RawStream, classify_stream s = classify_spec s)
    ∧ classify_stream ⟨"truehd", "dolby truehd atmos", some "eng"⟩ =
        some ⟨"Dolby Atmos", "eng", "truehd", "dolby truehd atmos"⟩
    ∧ classify_stream ⟨"eac3", "ddp joc", some "eng"⟩ =
        some ⟨"Dolby Atmos", "eng", "eac3", "ddp joc"⟩
    ∧ classify_stream ⟨"dts", "dts-x", some "eng"⟩ =
        some ⟨"DTS:X", "eng", "dts", "dts-x"⟩
    ∧ classify_stream ⟨"aac", "lc", some "eng"⟩ = none :=
  ⟨classify_eq_spec, by decide, by decide, by decide, by decide⟩

/-- C2 counterexample: the file's current signature "2_2" differs from
the cached "1_1" and the probe fails, so `scan_video` invokes the prober
(`probed = true`) but returns with the stale entry still in place — the
cache entry is NOT overwritten, contradicting the claim's second half. -/
theorem C2_stale_entry_not_overwritten_cex :
    ("1_1" : String) ≠ "2_2"
    ∧ scan_video ⟨fun _ => some "2_2", fun _ => none⟩ "p" [("p", ⟨"1_1", []⟩)] =
        .ok ⟨[], [("p", ⟨"1_1", []⟩)], true⟩ :=
  ⟨by decide, by rfl⟩

/-- C2 amended: on a signature match the prober is not invoked and the
stored tracks are returned unchanged; on a missing or stale entry the
prober is invoked, and the entry is overwritten with the current signature
and freshly classified tracks ONLY when the probe succeeds — a failed
probe leaves the cache exactly as it was. -/
theorem C2_cache_discipline (env : Env) (path sig : String) (c : Cache)
    (hsig : env.sigOf path = some sig) :
    (∀ e, c.lookup path = some e → e.sig = sig →
        scan_video env path c = .ok ⟨e.tracks, c, false⟩)
    ∧ (∀ streams, env.probeOf path = some streams →
        (∀ e, c.lookup path = some e → e.sig ≠ sig) →
        scan_video env path c =
          .ok ⟨streams.filterMap classify_stream,
            cacheInsert c path ⟨sig, streams.filterMap classify_stream⟩, true⟩)
    ∧ (env.probeOf path = none →
        (∀ e, c.lookup path = some e → e.sig ≠ sig) →
        scan_video env path c = .ok ⟨[], c, true⟩) := by
  refine ⟨?_, ?_, ?_⟩
  · intro e he hsigeq
    unfold scan_video
    rw [hsig, he]
    simp [hsigeq]
  · intro streams hpr hm
    unfold scan_video probe_and_cache
    rw [hsig, hpr]
    cases hl : c.lookup path with
    | none => rfl
    | some e =>
      have : (e.sig == sig) = false := by simp [hm e hl]
      simp [this]
  · intro hpr hm
    unfold scan_video probe_and_cache
    rw [hsig, hpr]
    cases hl : c.lookup path with
    | none => rfl
    | some e =>
      have : (e.sig == sig) = false := by simp [hm e hl]
      simp [this]

/-- C2 witness: the amended theorem applied at a concrete cache hit. -/
theorem C2_cache_discipline_witness :
    scan_video ⟨fun _ => some "1_1", fun _ => none⟩ "p"
        [("p", ⟨"1_1", [⟨"Dolby Atmos", "eng", "truehd", "atmos"⟩]⟩)] =
      .ok ⟨[⟨"Dolby Atmos", "eng", "truehd", "atmos"⟩],
        [("p", ⟨"1_1", [⟨"Dolby Atmos", "eng", "truehd", "atmos"⟩]⟩)], false⟩ :=
  (C2_cache_discipline ⟨fun _ => some "1_1", fun _ => none⟩ "p" "1_1"
    [("p", ⟨"1_1", [⟨"Dolby Atmos", "eng", "truehd", "atmos"⟩]⟩)] rfl).1
    ⟨"1_1", [⟨"Dolby Atmos", "eng", "truehd", "atmos"⟩]⟩ rfl rfl

/-- C3 counterexample: a probe failure on an uncached file returns zero
tracks but writes NO cache entry — the cache is still empty afterwards,
contradicting the claim that a "scanned, nothing found" entry is
recorded. -/
theorem C3_probe_failure_writes_no_entry_cex :
    scan_video ⟨fun _ => some "1_1", fun _ => none⟩ "p" [] = .ok ⟨[], [], true⟩
    ∧ (([] : Cache).lookup "p") = none :=
  ⟨by rfl, by rfl⟩

/-- C3 amended: when the probe fails on a cache miss (or stale entry) the
file yields zero tracks and the cache is returned UNCHANGED — no entry is
recorded, so a later scan of the file (same unchanged signature, same
cache) invokes the prober again instead of skipping it. -/
theorem C3_probe_failure_no_cache_write (env : Env) (path sig : String) (c : Cache)
    (hsig : env.sigOf path = some sig)
    (hpr : env.probeOf path = none)
    (hm : ∀ e, c.lookup path = some e → e.sig ≠ sig) :
    scan_video env path c = .ok ⟨[], c, true⟩ := by
  unfold scan_video probe_and_cache
  rw [hsig, hpr]
  cases hl : c.lookup path with
  | none => rfl
  | some e =>
    have : (e.sig == sig) = false := by simp [hm e hl]
    simp [this]

/-- C3 witness: the amended theorem at a concrete failing probe. -/
theorem C3_probe_failure_no_cache_write_witness :
    scan_video ⟨fun _ => some "1_1", fun _ => none⟩ "p" [] = .ok ⟨[], [], true⟩ :=
  C3_probe_failure_no_cache_write ⟨fun _ => some "1_1", fun _ => none⟩ "p" "1_1" []
    rfl rfl (by simp [List.lookup])

/-- C4 counterexample: `load_cache` has no try/except — on an unparseable
cache file the `json.load` exception propagates, and a parseable file with
an unexpected schema is returned as-is rather than as the empty mapping. -/
theorem C4_load_cache_raises_cex :
    load_cache .malformed = .error ()
    ∧ load_cache (.wellFormed (.str "junk")) = .ok (.str "junk")
    ∧ Json.str "junk" ≠ Json.obj [] :=
  ⟨rfl, rfl, fun h => Json.noConfusion h⟩

/-- C4 amended: loading returns the empty mapping only when the cache
file is absent; a present but unparseable file raises (the error
propagates), and a parseable document is returned unchanged, with no
schema check. -/
theorem C4_load_cache_behavior :
    load_cache .absent = .ok (.obj [])
    ∧ load_cache .malformed = .error ()
    ∧ ∀ doc, load_cache (.wellFormed doc) = .ok doc :=
  ⟨rfl, rfl, fun _ => rfl⟩

/-- C4 witness: the amended theorem evaluated on a concrete document. -/
theorem C4_load_cache_behavior_witness :
    load_cache (.wellFormed (.obj [])) = .ok (.obj []) :=
  C4_load_cache_behavior.2.2 (.obj [])

end AtmosScanner

namespace AtmosScanner

theorem scan_loop_error_of_sig_none (env : Env) (total : Nat) :
    ∀ (paths : List String), (∃ p ∈ paths, env.sigOf p = none) →
      ∀ (i : Nat) (c : Cache), scan_loop env total paths i c = .error () := by
  intro paths
  induction paths with
  | nil => intro hbad; simp at hbad
  | cons p rest ih =>
    intro hbad i c
    obtain ⟨q, hq, hqnone⟩ := hbad
    rcases List.mem_cons.1 hq with rfl | hmem
    · unfold scan_loop scan_video
      rw [hqnone]
    · unfold scan_loop
      cases hs : env.sigOf p with
      | none =>
        unfold scan_video
        rw [hs]
      | some sig =>
        obtain ⟨v, hv⟩ := scan_video_ok_of_sig env p sig c hs
        rw [hv]
        dsimp only
        rw [ih ⟨q, hmem, hqnone⟩ (i + 1) v.cache]

theorem scan_loop_calls (env : Env) (total : Nat) :
    ∀ (paths : List String) (i : Nat) (c : Cache) (r : FolderScan),
      scan_loop env total paths i c = .ok r →
      r.calls = (List.range paths.length).map (fun j => (i + j, total)) := by
  intro paths
  induction paths with
  | nil =>
    intro i c r h
    unfold scan_loop at h
    injection h with h'
    subst h'
    simp
  | cons p rest ih =>
    intro i c r h
    unfold scan_loop at h
    cases hv : scan_video env p c <;> rw [hv] at h <;> dsimp only at h
    · exact absurd h (by simp)
    case ok v =>
      cases hr : scan_loop env total rest (i + 1) v.cache <;> rw [hr] at h <;> dsimp only at h
      · exact absurd h (by simp)
      case ok r2 =>
        injection h with h'
        subst h'
        have hrec := ih (i + 1) v.cache r2 hr
        show (i, total) :: r2.calls = _
        rw [hrec, List.length_cons, List.range_succ_eq_map, List.map_cons, List.map_map]
        refine congrArg₂ _ (by simp) (List.map_congr_left ?_)
        intro j _
        simp only [Function.comp_apply, Prod.mk.injEq, and_true]
        omega

theorem scan_loop_frame (env : Env) (total : Nat) :
    ∀ (paths : List String) (i : Nat) (c : Cache) (r : FolderScan) (q : String),
      scan_loop env total paths i c = .ok r →
      (∀ p ∈ paths, q ≠ p) →
      r.cache.lookup q = c.lookup q := by
  intro paths
  induction paths with
  | nil =>
    intro i c r q h _
    unfold scan_loop at h
    injection h with h'
    subst h'
    rfl
  | cons p rest ih =>
    intro i c r q h hq
    unfold scan_loop at h
    cases hv : scan_video env p c <;> rw [hv] at h <;> dsimp only at h
    · exact absurd h (by simp)
    case ok v =>
      cases hr : scan_loop env total rest (i + 1) v.cache <;> rw [hr] at h <;> dsimp only at h
      · exact absurd h (by simp)
      case ok r2 =>
        injection h with h'
        subst h'
        have h1 : r2.cache.lookup q = v.cache.lookup q :=
          ih (i + 1) v.cache r2 q hr (fun x hx => hq x (List.mem_cons_of_mem p hx))
        have h2 : v.cache.lookup q = c.lookup q :=
          scan_video_frame env p q c v hv (hq p (List.mem_cons_self p rest))
        exact h1.trans h2

end AtmosScanner

namespace AtmosScanner

theorem progress_calls_spec (N : Nat) (calls : List (Nat × Nat))
    (hc : calls = (List.range N).map (fun j => (1 + j, N))) :
    calls.length = N
    ∧ (∀ p ∈ calls, p.2 = N)
    ∧ List.Sorted (· ≤ ·) (calls.map Prod.fst)
    ∧ List.count N (calls.map Prod.fst) = (if N = 0 then 0 else 1)
    ∧ (N ≠ 0 → calls.getLast? = some (N, N))
    ∧ (N = 0 → calls = []) := by
  subst hc
  refine ⟨by simp, ?_, ?_, ?_, ?_, ?_⟩
  · intro p hp
    obtain ⟨j, _, rfl⟩ := List.mem_map.1 hp
    rfl
  · rw [List.map_map]
    exact List.Pairwise.map _
      (fun a b hab => by simp only [Function.comp_apply]; omega)
      (List.pairwise_lt_range N)
  · rw [List.map_map]
    have hmm : (List.range N).map (Prod.fst ∘ fun j => (1 + j, N)) =
        (List.range N).map (fun j => 1 + j) := rfl
    rw [hmm]
    cases N with
    | zero => simp
    | succ n =>
      have hnd : ((List.range (n + 1)).map (fun j => 1 + j)).Nodup :=
        (List.nodup_range _).map (fun a b hab => by omega)
      have hm : (n + 1) ∈ (List.range (n + 1)).map (fun j => 1 + j) :=
        List.mem_map.2 ⟨n, by simp, by omega⟩
      rw [if_neg (Nat.succ_ne_zero n)]
      exact List.count_eq_one_of_mem hnd hm
  · intro hN
    obtain ⟨n, rfl⟩ := Nat.exists_eq_succ_of_ne_zero hN
    rw [List.getLast?_eq_getElem?]
    have hlen : ((List.range (n + 1)).map (fun j => (1 + j, n + 1))).length = n + 1 := by simp
    rw [hlen]
    have hidx : (n + 1) - 1 = n := rfl
    rw [hidx, List.getElem?_map, List.getElem?_range (by omega)]
    refine congrArg some ?_
    simp only [Prod.mk.injEq, and_true]
    omega
  · intro hN
    subst hN
    simp

/-- C5 counterexample: a signature failure on one file ("r/b.mkv") aborts
the whole scan — `scan_folders` raises and no results are returned for the
other two files, although the same environment scans them fine when the
bad file is absent. -/
theorem C5_sig_error_aborts_scan_cex :
    scan_folders ⟨fun p => if p == "r/b.mkv" then none else some "1_1", fun _ => some []⟩
      [⟨"r", [.file "a.mkv", .file "b.mkv", .file "c.mkv"]⟩] [] = .error ()
    ∧ (scan_folders ⟨fun p => if p == "r/b.mkv" then none else some "1_1", fun _ => some []⟩
        [⟨"r", [.file "a.mkv", .file "c.mkv"]⟩] []).map (fun r => r.calls) =
      .ok [(1, 2), (2, 2)] :=
  ⟨by rfl, by rfl⟩

/-- C5 amended: a file-access error while computing a signature is NOT
caught anywhere — the exception propagates out of `scan_video` and
`scan_folders`, aborting the whole multi-folder scan: no results are
returned for the remaining files and the cache is never saved. -/
theorem C5_sig_error_aborts_scan (env : Env) (folders : List Folder) (c : Cache)
    (h : ∃ f ∈ enumerate_video_files folders, env.sigOf f.path = none) :
    scan_folders env folders c = .error () := by
  unfold scan_folders
  apply scan_loop_error_of_sig_none
  obtain ⟨f, hf, hnone⟩ := h
  exact ⟨f.path, List.mem_map_of_mem _ hf, hnone⟩

/-- C5 witness: the amended theorem at a concrete inaccessible file. -/
theorem C5_sig_error_aborts_scan_witness :
    scan_folders ⟨fun _ => none, fun _ => some []⟩ [⟨"r", [.file "a.mkv"]⟩] [] = .error () :=
  C5_sig_error_aborts_scan ⟨fun _ => none, fun _ => some []⟩ [⟨"r", [.file "a.mkv"]⟩] []
    ⟨⟨"r/a.mkv", "a.mkv", false⟩, by decide, rfl⟩

/-- C6: for a completed scan over N enumerated files, the progress
callback runs exactly once per file, its second argument is always N, its
first argument is non-decreasing, it equals N exactly once — on the last
call — and a zero-file scan makes no calls. -/
theorem C6_progress_callback_invariant (env : Env) (folders : List Folder) (c : Cache)
    (r : FolderScan) (h : scan_folders env folders c = .ok r) :
    r.calls.length = (enumerate_video_files folders).length
    ∧ (∀ p ∈ r.calls, p.2 = (enumerate_video_files folders).length)
    ∧ List.Sorted (· ≤ ·) (r.calls.map Prod.fst)
    ∧ List.count (enumerate_video_files folders).length (r.calls.map Prod.fst) =
        (if (enumerate_video_files folders).length = 0 then 0 else 1)
    ∧ ((enumerate_video_files folders).length ≠ 0 →
        r.calls.getLast? = some ((enumerate_video_files folders).length,
          (enumerate_video_files folders).length))
    ∧ ((enumerate_video_files folders).length = 0 → r.calls = []) := by
  unfold scan_folders at h
  dsimp only at h
  have hc := scan_loop_calls env _ _ 1 c r h
  rw [List.length_map] at hc
  exact progress_calls_spec _ _ hc

/-- C6 witness: the invariant instantiated on a one-file scan. -/
theorem C6_progress_callback_invariant_witness :
    (⟨[], [("r/a.mkv", ⟨"1_1", []⟩)], [(1, 1)]⟩ : FolderScan).calls.length =
      (enumerate_video_files [⟨"r", [.file "a.mkv"]⟩]).length :=
  (C6_progress_callback_invariant ⟨fun _ => some "1_1", fun _ => some []⟩
    [⟨"r", [.file "a.mkv"]⟩] [] ⟨[], [("r/a.mkv", ⟨"1_1", []⟩)], [(1, 1)]⟩ (by rfl)).1

/-- C9: a completed scan leaves every cache entry whose path is not among
the enumerated files exactly as it was — the persisted cache still maps it
to its original signature and tracks. -/
theorem C9_unscanned_entries_untouched (env : Env) (folders : List Folder) (c : Cache)
    (r : FolderScan) (q : String)
    (h : scan_folders env folders c = .ok r)
    (hq : ∀ f ∈ enumerate_video_files folders, q ≠ f.path) :
    r.cache.lookup q = c.lookup q := by
  unfold scan_folders at h
  dsimp only at h
  refine scan_loop_frame env _ _ 1 c r q h ?_
  intro p hp
  obtain ⟨f, hf, rfl⟩ := List.mem_map.1 hp
  exact hq f hf

/-- C9 witness: an entry for a path outside the scanned folder survives a
concrete scan unchanged. -/
theorem C9_unscanned_entries_untouched_witness :
    (⟨[], [("other", ⟨"9_9", []⟩), ("r/a.mkv", ⟨"1_1", []⟩)], [(1, 1)]⟩ : FolderScan).cache.lookup
        "other" =
      ([("other", ⟨"9_9", []⟩)] : Cache).lookup "other" :=
  C9_unscanned_entries_untouched ⟨fun _ => some "1_1", fun _ => some []⟩
    [⟨"r", [.file "a.mkv"]⟩] [("other", ⟨"9_9", []⟩)]
    ⟨[], [("other", ⟨"9_9", []⟩), ("r/a.mkv", ⟨"1_1", []⟩)], [(1, 1)]⟩ "other"
    (by rfl) (by decide)

end AtmosScanner

namespace AtmosScanner

theorem enumerate_eq_filter (folders : List Folder) :
    enumerate_video_files folders =
      (allEntries folders).filter (fun f => matchesVideoExt f.name) := by
  unfold enumerate_video_files allEntries
  rw [List.filter_flatten, List.map_map]
  rfl

theorem mem_enumerate_of_matches (folders : List Folder) (e : DirEntry)
    (he : e ∈ allEntries folders) (hm : matchesVideoExt e.name = true) :
    e ∈ enumerate_video_files folders := by
  rw [enumerate_eq_filter]
  exact List.mem_filter.2 ⟨he, hm⟩

theorem matches_of_mem_enumerate (folders : List Folder) (e : DirEntry)
    (he : e ∈ enumerate_video_files folders) : matchesVideoExt e.name = true := by
  rw [enumerate_eq_filter] at he
  exact (List.mem_filter.1 he).2

/-- C7: the walk yields exactly the entries whose suffix, lowered, is in
the fixed extension set: the enumeration equals the unfiltered recursive
walk filtered on that test, both inclusions hold, duplicated root folders
duplicate their files, and the spec's mkv/mp4/txt example evaluates as
stated. -/
theorem C7_enumeration_exact :
    (∀ folders, enumerate_video_files folders =
        (allEntries folders).filter (fun f => matchesVideoExt f.name))
    ∧ (∀ folders e, e ∈ enumerate_video_files folders → matchesVideoExt e.name = true)
    ∧ (∀ folders e, e ∈ allEntries folders → matchesVideoExt e.name = true →
        e ∈ enumerate_video_files folders)
    ∧ (∀ fs1 fs2 : List Folder, enumerate_video_files (fs1 ++ fs2) =
        enumerate_video_files fs1 ++ enumerate_video_files fs2)
    ∧ enumerate_video_files [⟨"r", [.file "a.mkv", .file "b.mp4", .file "c.txt"]⟩] =
        [⟨"r/a.mkv", "a.mkv", false⟩, ⟨"r/b.mp4", "b.mp4", false⟩] :=
  ⟨enumerate_eq_filter, matches_of_mem_enumerate, mem_enumerate_of_matches,
    fun fs1 fs2 => by simp [enumerate_video_files], by decide⟩

/-- C7 witness: both inclusions applied at a concrete folder. -/
theorem C7_enumeration_exact_witness :
    (⟨"r/a.mkv", "a.mkv", false⟩ : DirEntry) ∈
      enumerate_video_files [⟨"r", [.file "a.mkv", .file "c.txt"]⟩] :=
  C7_enumeration_exact.2.2.1 [⟨"r", [.file "a.mkv", .file "c.txt"]⟩]
    ⟨"r/a.mkv", "a.mkv", false⟩ (by decide) (by decide)

/-- C10: the walk filter tests only the name's suffix, never whether the
entry is a regular file: any entry — directories included — whose suffix
is recognized is enumerated, a directory named "x.mkv" concretely appears,
and the pipeline then passes it to the per-file scan (one progress call is
made for it and a cache entry is written under the directory's path). -/
theorem C10_directories_enumerated :
    (∀ folders e, e ∈ allEntries folders → matchesVideoExt e.name = true →
        e ∈ enumerate_video_files folders)
    ∧ (⟨"r/x.mkv", "x.mkv", true⟩ : DirEntry) ∈
        enumerate_video_files [⟨"r", [.dir "x.mkv" [.file "i.txt"], .file "a.txt"]⟩]
    ∧ (scan_folders ⟨fun _ => some "1_1", fun _ => some []⟩
          [⟨"r", [.dir "x.mkv" [.file "i.txt"], .file "a.txt"]⟩] []).map
        (fun r => (r.calls, r.cache.lookup "r/x.mkv")) =
      .ok ([(1, 1)], some ⟨"1_1", []⟩) :=
  ⟨mem_enumerate_of_matches, by decide, by rfl⟩

theorem decodeTrack_encodeTrack (t : Track) : decodeTrack (encodeTrack t) = some t := by
  cases t
  rfl

theorem decodeTracks_encode (ts : List Track) :
    decodeTracks (ts.map encodeTrack) = some ts := by
  induction ts with
  | nil => rfl
  | cons t rest ih =>
    simp [decodeTracks, decodeTrack_encodeTrack, ih]

theorem decodeEntry_encodeEntry (e : CacheEntry) : decodeEntry (encodeEntry e) = some e := by
  obtain ⟨s, ts⟩ := e
  show (match decodeTracks (ts.map encodeTrack) with
    | some tracks => some (⟨s, tracks⟩ : CacheEntry)
    | none => none) = some ⟨s, ts⟩
  rw [decodeTracks_encode]

theorem decodeEntries_encode (c : Cache) :
    decodeEntries (c.map (fun kv => (kv.1, encodeEntry kv.2))) = some c := by
  induction c with
  | nil => rfl
  | cons kv rest ih =>
    obtain ⟨k, e⟩ := kv
    simp [decodeEntries, decodeEntry_encodeEntry, ih]

/-- C8: saving a cache mapping and loading it back reproduces an
equivalent mapping — `load_cache` returns the saved document unchanged,
and reading its fields back (as `scan_video` and the result rows do)
recovers the same keys, signature strings, and track sequences in the
same order. -/
theorem C8_save_load_roundtrip (c : Cache) :
    load_cache (.wellFormed (save_cache c)) = .ok (save_cache c)
    ∧ decodeCache (save_cache c) = some c :=
  ⟨rfl, decodeEntries_encode c⟩

/-- C8 witness: the round trip on a concrete one-entry cache. -/
theorem C8_save_load_roundtrip_witness :
    decodeCache (save_cache [("p", ⟨"1_1", [⟨"Dolby Atmos", "eng", "eac3", "ddp joc"⟩]⟩)]) =
      some [("p", ⟨"1_1", [⟨"Dolby Atmos", "eng", "eac3", "ddp joc"⟩]⟩)] :=
  (C8_save_load_roundtrip [("p", ⟨"1_1", [⟨"Dolby Atmos", "eng", "eac3", "ddp joc"⟩]⟩)]).2

end AtmosScanner
